import Mathlib

/-!
Shallow embedding of `src/src/lib.rs` (Looking Glass HID configuration reader).

The transport (the external `hid` crate) is modelled as a `Device`: a record of
the observable behaviour the code consumes — the outcome of `open`/`blocking`,
the byte count reported by `feature().send`, and the sequence of chunks the
response channel yields for the request of a given page address.  Machine
integers are `Nat` with explicit `% 2 ^ w` where the source narrows
(`as u16`, `as u8`, u16 addition).  Rust panics (out-of-bounds indexing) are a
distinct `RResult.panic` outcome.  Strings produced with `format!` are modelled
by explicit concatenation.
-/

namespace Pluton

/-- Models `hid::Error` as consumed by this crate: `hid::Error::Write`,
`hid::Error::Read`, `hid::Error::String(s)` (used for the UTF-8 decode
failure), and a catch-all for `open`/`blocking` transport failures. -/
inductive HidErr where
  | write
  | read
  | string (s : String)
  | openFail (s : String)

/-- Outcome of running a fallible, possibly panicking piece of Rust code. -/
inductive RResult (α : Type) where
  | ok (a : α)
  | err (e : HidErr)
  | panic

/-- The device/handle behaviour visible to the code under `src/`:
`openResult` models `candidate.open()` followed by `handle.blocking(true)`
(`none` = both succeed); `send` models the byte count returned by
`handle.feature().send(&buf)`; `respond addr` models the sequence of chunks the
response channel delivers (until "no data ready") after the request frame for
page `addr` has been sent. -/
structure Device where
  openResult : Option HidErr
  send : List Nat → Nat
  respond : Nat → List (List Nat)

/-- `hid_multiread` (lib.rs:131-150): repeatedly reads chunks and concatenates
them until the transport reports no data ready. -/
def hid_multiread (chunks : List (List Nat)) : List Nat :=
  chunks.join

/-- The 4 confirmation bytes of lib.rs:172:
`[0, 0, (addr>>8 & 0xff) as u8, (addr & 0xFF) as u8]`. -/
def echoBytes (addr : Nat) : List Nat :=
  [0, 0, (addr >>> 8) % 256, addr % 256]

/-- The request frame built at lib.rs:159-161: `put_u16_be(0)`,
`put_u16_be(addr)`, then `resize(68, 0)` (64 zero padding bytes). -/
def requestFrame (addr : Nat) : List Nat :=
  0 :: 0 :: (addr >>> 8) % 256 :: addr % 256 :: List.replicate 64 0

/-- `hid_query` (lib.rs:153-180): drain the channel (no observable effect on a
quiescent device, so not represented in the pure model), send the 68-byte
frame (write mismatch if fewer bytes are reported written), accumulate the
response, check the 4-byte echo header, and return the payload with the header
stripped.  The `println!` before the confirmation-mismatch return is a side
effect with no bearing on the returned value. -/
def hid_query (d : Device) (addr : Nat) : Except HidErr (List Nat) :=
  let buf := requestFrame addr
  let count := d.send buf
  if count ≠ buf.length then .error .write
  else
    let resp := hid_multiread (d.respond addr)
    if resp.length ≤ 4 then .error .read
    else if resp.take 4 ≠ echoBytes addr then .error .read
    else .ok (resp.drop 4)

/-- The page address computed at lib.rs:204-205:
`let last_page = (json.len() / 64) as u16;` then `last_page + 1` in u16
arithmetic (the `as u16` cast truncates mod 2^16; the increment is u16
addition, i.e. mod 2^16). -/
def pageAddr (len : Nat) : Nat :=
  ((len / 64) % 65536 + 1) % 65536

/-- The page-reading loop of `get_json_string` (lib.rs:203-208): while the
accumulated buffer is shorter than the declared size, query the next page and
append its full payload.  Terminates because a successful `hid_query` returns
at least one payload byte. -/
def assembleLoop (d : Device) (N : Nat) (json : List Nat) : Except HidErr (List Nat) :=
  if h : json.length < N then
    match h2 : hid_query d (pageAddr json.length) with
    | .error e => .error e
    | .ok p => assembleLoop d N (json ++ p)
  else .ok json
termination_by N - json.length
decreasing_by
  simp only [hid_query, hid_multiread] at h2
  split_ifs at h2 with hw hshort hconf
  all_goals
    first
      | exact Except.noConfusion h2
      | (injection h2 with h3
         rw [← h3]
         simp only [List.length_append, List.length_drop]
         omega)

/-- Ghost instrumentation of `assembleLoop`: the list of page addresses the
loop passes to `hid_query`, in order.  Same recursion structure as
`assembleLoop`; used only to state which addresses are requested. -/
def assembleLoopAddrs (d : Device) (N : Nat) (json : List Nat) : List Nat :=
  if h : json.length < N then
    match h2 : hid_query d (pageAddr json.length) with
    | .error _ => [pageAddr json.length]
    | .ok p => pageAddr json.length :: assembleLoopAddrs d N (json ++ p)
  else []
termination_by N - json.length
decreasing_by
  simp only [hid_query, hid_multiread] at h2
  split_ifs at h2 with hw hshort hconf
  all_goals
    first
      | exact Except.noConfusion h2
      | (injection h2 with h3
         rw [← h3]
         simp only [List.length_append, List.length_drop]
         omega)

/-- The 4-byte big-endian length extraction of lib.rs:193-197:
`for i in 0..4 { json_size <<= 8; json_size += json_size_raw[i] as usize }`.
The source indexes `json_size_raw[i]` with a panicking `Index` impl, so a
payload shorter than 4 bytes is an out-of-bounds panic, modelled as `none`. -/
def readJsonSize (raw : List Nat) : Option Nat :=
  match raw.get? 0, raw.get? 1, raw.get? 2, raw.get? 3 with
  | some b0, some b1, some b2, some b3 => some (((b0 * 256 + b1) * 256 + b2) * 256 + b3)
  | _, _, _, _ => none

/-- Lifts the `?`-propagated `hid::Result` of the inner loop into the
panic-aware outcome type. -/
def exceptToR {α : Type} : Except HidErr α → RResult α
  | .ok a => .ok a
  | .error e => .err e

/-- `get_json_string` (lib.rs:183-216) up to but excluding the final UTF-8
decode: open the handle, query page 0, extract the declared length, keep the
remainder of page 0 as the initial buffer, run the page loop, and truncate the
result to exactly the declared length. -/
def get_json_bytes (d : Device) : RResult (List Nat) :=
  match d.openResult with
  | some e => .err e
  | none =>
    match hid_query d 0 with
    | .error e => .err e
    | .ok json_size_raw =>
      match readJsonSize json_size_raw with
      | none => .panic
      | some json_size =>
        match assembleLoop d json_size (json_size_raw.drop 4) with
        | .error e => .err e
        | .ok json => .ok (json.take json_size)

/-- Strict UTF-8 validity of a byte sequence, exactly the condition under which
`str::from_utf8` succeeds: ASCII, 2-byte C2..DF, 3-byte with the E0/ED
overlong/surrogate restrictions, 4-byte with the F0/F4 range restrictions, all
continuation bytes in 80..BF. -/
def isValidUtf8 : List Nat → Bool
  | [] => true
  | b :: r =>
    if b ≤ 127 then isValidUtf8 r
    else if 194 ≤ b ∧ b ≤ 223 then
      match r with
      | c1 :: r2 => (128 ≤ c1 && c1 ≤ 191) && isValidUtf8 r2
      | [] => false
    else if b = 224 then
      match r with
      | c1 :: c2 :: r3 => (160 ≤ c1 && c1 ≤ 191) && (128 ≤ c2 && c2 ≤ 191) && isValidUtf8 r3
      | _ => false
    else if (225 ≤ b ∧ b ≤ 236) ∨ b = 238 ∨ b = 239 then
      match r with
      | c1 :: c2 :: r3 => (128 ≤ c1 && c1 ≤ 191) && (128 ≤ c2 && c2 ≤ 191) && isValidUtf8 r3
      | _ => false
    else if b = 237 then
      match r with
      | c1 :: c2 :: r3 => (128 ≤ c1 && c1 ≤ 159) && (128 ≤ c2 && c2 ≤ 191) && isValidUtf8 r3
      | _ => false
    else if b = 240 then
      match r with
      | c1 :: c2 :: c3 :: r4 =>
        (144 ≤ c1 && c1 ≤ 191) && (128 ≤ c2 && c2 ≤ 191) && (128 ≤ c3 && c3 ≤ 191) &&
          isValidUtf8 r4
      | _ => false
    else if 241 ≤ b ∧ b ≤ 243 then
      match r with
      | c1 :: c2 :: c3 :: r4 =>
        (128 ≤ c1 && c1 ≤ 191) && (128 ≤ c2 && c2 ≤ 191) && (128 ≤ c3 && c3 ≤ 191) &&
          isValidUtf8 r4
      | _ => false
    else if b = 244 then
      match r with
      | c1 :: c2 :: c3 :: r4 =>
        (128 ≤ c1 && c1 ≤ 143) && (128 ≤ c2 && c2 ≤ 191) && (128 ≤ c3 && c3 ≤ 191) &&
          isValidUtf8 r4
      | _ => false
    else false

/-- The message of the `hid::Error::String` produced at lib.rs:214 (the
`Utf8Error` display text, modelled as a fixed marker string). -/
def utf8Msg : String :=
  "invalid utf-8"

/-- `get_json_string` (lib.rs:183-216): the assembled, truncated bytes are
validated as UTF-8; on success the document is returned (the `String` is its
validated byte sequence), on failure the distinct `hid::Error::String` error is
returned (lib.rs:212-215). -/
def get_json_string (d : Device) : RResult (List Nat) :=
  match get_json_bytes d with
  | .ok json => if isValidUtf8 json then .ok json else .err (.string utf8Msg)
  | .err e => .err e
  | .panic => .panic

/-- Ghost instrumentation of `get_json_string`: the addresses its page loop
requests (empty if the run fails before reaching the loop). -/
def getRequestedLoopAddrs (d : Device) : List Nat :=
  match d.openResult with
  | some _ => []
  | none =>
    match hid_query d 0 with
    | .error _ => []
    | .ok json_size_raw =>
      match readJsonSize json_size_raw with
      | none => []
      | some json_size => assembleLoopAddrs d json_size (json_size_raw.drop 4)

/-! ### Record decoder -/

/-- Model of an `f32` value as the code uses it: it is only stored and (for the
screen fields) cast with `as u32`, so only its real value and the NaN/infinity
flags are observable. -/
inductive F32 where
  | nan
  | negInf
  | posInf
  | finite (q : ℚ)

/-- Rust `as u32` applied to an `f32` (lib.rs:116-117): truncate toward zero
and saturate to `0 ..= u32::MAX`; NaN maps to 0.  For a positive rational,
truncation toward zero is `q.num.toNat / q.den` in natural division. -/
def f32ToU32 : F32 → Nat
  | .nan => 0
  | .negInf => 0
  | .posInf => 4294967295
  | .finite q => if q ≤ 0 then 0 else min (q.num.toNat / q.den) 4294967295

/-- The `JSONValueMap` helper struct (lib.rs:83-86). -/
structure JSONValueMap where
  value : F32

/-- The `ConfigJSON` schema struct (lib.rs:88-105). -/
structure ConfigJSON where
  configVersion : String
  serial : String
  pitch : JSONValueMap
  slope : JSONValueMap
  center : JSONValueMap
  viewCone : JSONValueMap
  invView : JSONValueMap
  verticalAngle : JSONValueMap
  DPI : JSONValueMap
  screenW : JSONValueMap
  screenH : JSONValueMap
  flipImageX : JSONValueMap
  flipImageY : JSONValueMap
  flipSubp : JSONValueMap

/-- The `LookingGlass` record (lib.rs:14-23). -/
structure LookingGlass where
  serial : String
  pitch : F32
  slope : F32
  center : F32
  dpi : F32
  screen_w : Nat
  screen_h : Nat

/-- The crate error type `Error` (lib.rs:25-29). -/
inductive Error where
  | HIDError (s : String)
  | ParseError (s : String)

/-- The `format!` message of lib.rs:120-121 (the source text uses the
contraction of "Do not"). -/
def unsupportedVersionMsg (v : String) : String :=
  "Do not know how to read config version " ++ v ++ "..."

/-- The `format!` message of lib.rs:125. -/
def parseErrorMsg (e : String) : String :=
  "Error parsing JSON: " ++ e

/-- `json_to_glass` (lib.rs:81-128).  `serde_json::from_str` is the external
structured-text parser (out of scope per the interface contract), so the
function is modelled on the parse outcome: `.ok config` for a document that
parses to the `ConfigJSON` schema, `.error e` for a parse failure. -/
def json_to_glass (parsed : Except String ConfigJSON) : Except Error LookingGlass :=
  match parsed with
  | .ok config =>
    if config.configVersion = "1.0" then
      .ok { serial := config.serial
            pitch := config.pitch.value
            slope := config.slope.value
            center := config.center.value
            dpi := config.DPI.value
            screen_w := f32ToU32 config.screenW.value
            screen_h := f32ToU32 config.screenH.value }
    else .error (.ParseError (unsupportedVersionMsg config.configVersion))
  | .error e => .error (.ParseError (parseErrorMsg e))

/-! ### Device enumerator -/

/-- A hardware candidate matching the vendor/product pair: the serial number
the HID layer reports (may be absent), and the device behaviour behind it. -/
structure Candidate where
  serial_number : Option String
  dev : Device

/-- The HID manager state: `hid::init()` either fails with an error string or
yields the list of matching candidates. -/
structure HidWorld where
  init : Except String (List Candidate)

/-- `error.to_string()` on a `hid::Error` (Display impl of the external crate,
modelled abstractly; the `String` variant displays its payload). -/
def hidErrString : HidErr → String
  | .write => "hid write error"
  | .read => "hid read error"
  | .string s => s
  | .openFail s => s

/-- The per-candidate body of the `findall` loop (lib.rs:62-73): a missing HID
serial yields the permissions error; otherwise `get_json_string` then
`json_to_glass`, with transport errors wrapped as `Error::HIDError`.  `none`
models a panic unwinding out of the loop. -/
def processCandidate (parse : List Nat → Except String ConfigJSON) (c : Candidate) :
    Option (Except Error LookingGlass) :=
  match c.serial_number with
  | some _ =>
    match get_json_string c.dev with
    | .ok bytes => some (json_to_glass (parse bytes))
    | .err e => some (.error (.HIDError (hidErrString e)))
    | .panic => none
  | none => some (.error (.HIDError ("Error reading - may lack permissions?")))

/-- The `findall` candidate loop (lib.rs:61-74), pushing one outcome per
candidate. -/
def findallLoop (parse : List Nat → Except String ConfigJSON) :
    List Candidate → Option (List (Except Error LookingGlass))
  | [] => some []
  | c :: rest =>
    match processCandidate parse c with
    | none => none
    | some out =>
      match findallLoop parse rest with
      | none => none
      | some outs => some (out :: outs)

/-- `LookingGlass::findall` (lib.rs:50-77): a failed `hid::init()` yields a
single-element vector holding that error; otherwise one outcome per matching
candidate. -/
def findall (w : HidWorld) (parse : List Nat → Except String ConfigJSON) :
    Option (List (Except Error LookingGlass)) :=
  match w.init with
  | .error e => some [.error (.HIDError e)]
  | .ok cs => findallLoop parse cs

/-! ### Well-behaved paged devices (for the round-trip property) -/

/-- Big-endian 32-bit encoding of `n` (the declared-length header of page 0). -/
def be32 (n : Nat) : List Nat :=
  [n / 16777216 % 256, n / 65536 % 256, n / 256 % 256, n % 256]

/-- Pads a page slice with zero bytes to the fixed 64-byte page size. -/
def padTo64 (l : List Nat) : List Nat :=
  l ++ List.replicate (64 - l.length) 0

/-- The response a well-behaved device serves for page `a` when it stores the
document `doc` with `s0` document bytes carried on page 0: page 0 echoes its
address and carries the BE32 declared length followed by the first `s0` bytes;
page `a + 1` echoes its address and carries the 64-byte slice starting at
document offset `s0 % 64 + 64 * a`, zero-padded at the end of the document. -/
def pageResponse (doc : List Nat) (s0 : Nat) : Nat → List Nat
  | 0 => echoBytes 0 ++ (be32 doc.length ++ doc.take s0)
  | a + 1 => echoBytes (a + 1) ++ padTo64 ((doc.drop (s0 % 64 + 64 * a)).take 64)

/-- A device is well behaved for `doc`/`s0` when opening succeeds, writes
report the full frame length, and every page response (however it is split
into channel chunks) concatenates to `pageResponse doc s0`. -/
def WellBehaved (d : Device) (doc : List Nat) (s0 : Nat) : Prop :=
  d.openResult = none ∧ (∀ f, d.send f = f.length) ∧
    ∀ a, (d.respond a).join = pageResponse doc s0 a

/-! ### Concrete devices and documents used as witnesses and counterexamples -/

/-- A 65-byte ASCII document. -/
def docW : List Nat :=
  List.replicate 65 97

/-- A well-behaved device serving `docW` with the page-0 split after byte 50. -/
def dRT : Device :=
  { openResult := none
    send := fun f => f.length
    respond := fun a => [pageResponse docW 50 a] }

/-- A device whose page-0 response is accepted by the confirmation check but
carries only a single payload byte. -/
def dShort : Device :=
  { openResult := none
    send := fun f => f.length
    respond := fun a => if a = 0 then [[0, 0, 0, 0, 65]] else [] }

/-- Page-0 response of the huge-document device: echo header, BE32 declared
length 4194305, then 4194304 document bytes. -/
def dOverResp0 : List Nat :=
  [0, 0, 0, 0] ++ (be32 4194305 ++ List.replicate 4194304 97)

/-- Page-1 response of the huge-document device: echo header for address 1 and
a full 64-byte page. -/
def dOverResp1 : List Nat :=
  [0, 0, 0, 1] ++ List.replicate 64 97

/-- A device declaring a 4194305-byte document and delivering 4194304 document
bytes already on page 0, driving the accumulated length to 64 * 2^16. -/
def dOver : Device :=
  { openResult := none
    send := fun f => f.length
    respond := fun a =>
      if a = 0 then [dOverResp0]
      else if a = 1 then [dOverResp1]
      else [] }

/-- A device serving a 1-byte document whose single byte (255) is not valid
UTF-8. -/
def dBadUtf : Device :=
  { openResult := none
    send := fun f => f.length
    respond := fun a => if a = 0 then [[0, 0, 0, 0, 0, 0, 0, 1, 255]] else [] }

/-- A device answering every page with a response whose echo header does not
match the requested address. -/
def dMismatch : Device :=
  { openResult := none
    send := fun f => f.length
    respond := fun _ => [[9, 9, 9, 9, 1, 2, 3]] }

/-- A device serving a 2-byte document entirely on page 0. -/
def dW2 : Device :=
  { openResult := none
    send := fun f => f.length
    respond := fun a => if a = 0 then [[0, 0, 0, 0, 0, 0, 0, 2, 65, 66]] else [] }

/-- The parsed form of the example document of the repository test
(lib.rs:254-261): every numeric sub-field is its exact `value`. -/
def exampleConfig : ConfigJSON :=
  { configVersion := "1.0"
    serial := "00297"
    pitch := ⟨.finite (49.81804275512695 : ℚ)⟩
    slope := ⟨.finite (5.044347763061523 : ℚ)⟩
    center := ⟨.finite (0.176902174949646 : ℚ)⟩
    viewCone := ⟨.finite ((40 : ℕ) : ℚ)⟩
    invView := ⟨.finite ((1 : ℕ) : ℚ)⟩
    verticalAngle := ⟨.finite ((0 : ℕ) : ℚ)⟩
    DPI := ⟨.finite ((338 : ℕ) : ℚ)⟩
    screenW := ⟨.finite ((2560 : ℕ) : ℚ)⟩
    screenH := ⟨.finite ((1600 : ℕ) : ℚ)⟩
    flipImageX := ⟨.finite ((0 : ℕ) : ℚ)⟩
    flipImageY := ⟨.finite ((0 : ℕ) : ℚ)⟩
    flipSubp := ⟨.finite ((0 : ℕ) : ℚ)⟩ }

/-- The record the repository test expects for `exampleConfig`
(lib.rs:266-272). -/
def exampleGlass : LookingGlass :=
  { serial := "00297"
    pitch := .finite (49.81804275512695 : ℚ)
    slope := .finite (5.044347763061523 : ℚ)
    center := .finite (0.176902174949646 : ℚ)
    dpi := .finite ((338 : ℕ) : ℚ)
    screen_w := 2560
    screen_h := 1600 }

/-- A candidate whose HID serial is unobtainable. -/
def cNoSerial : Candidate :=
  { serial_number := none
    dev := dW2 }

/-- A parser stub (the external parser is irrelevant to the enumerator
claims). -/
def parseStub : List Nat → Except String ConfigJSON :=
  fun _ => .error ("stub")

/-! ### Basic facts about the embedded operations -/

theorem hid_query_ok_length {d : Device} {addr : Nat} {p : List Nat}
    (h : hid_query d addr = .ok p) : 0 < p.length := by
  simp only [hid_query, hid_multiread] at h
  split_ifs at h with hw hshort hconf
  all_goals
    first
      | exact Except.noConfusion h
      | (injection h with h3
         rw [← h3]
         simp only [List.length_drop]
         omega)

theorem assembleLoop_done {d : Device} {N : Nat} {json : List Nat}
    (h : ¬ json.length < N) : assembleLoop d N json = .ok json := by
  rw [assembleLoop]
  exact dif_neg h

theorem assembleLoop_step {d : Device} {N : Nat} {json p : List Nat}
    (h : json.length < N) (hq : hid_query d (pageAddr json.length) = .ok p) :
    assembleLoop d N json = assembleLoop d N (json ++ p) := by
  rw [assembleLoop, dif_pos h]
  split
  · rename_i e heq
    rw [hq] at heq
    exact Except.noConfusion heq
  · rename_i p2 heq
    rw [hq] at heq
    injection heq with h3
    rw [h3]

theorem assembleLoop_error {d : Device} {N : Nat} {json : List Nat} {e : HidErr}
    (h : json.length < N) (hq : hid_query d (pageAddr json.length) = .error e) :
    assembleLoop d N json = .error e := by
  rw [assembleLoop, dif_pos h]
  split
  · rename_i e2 heq
    rw [hq] at heq
    injection heq with h3
    rw [h3]
  · rename_i p2 heq
    rw [hq] at heq
    exact Except.noConfusion heq

theorem assembleLoopAddrs_done {d : Device} {N : Nat} {json : List Nat}
    (h : ¬ json.length < N) : assembleLoopAddrs d N json = [] := by
  rw [assembleLoopAddrs]
  exact dif_neg h

theorem assembleLoopAddrs_step {d : Device} {N : Nat} {json p : List Nat}
    (h : json.length < N) (hq : hid_query d (pageAddr json.length) = .ok p) :
    assembleLoopAddrs d N json =
      pageAddr json.length :: assembleLoopAddrs d N (json ++ p) := by
  rw [assembleLoopAddrs, dif_pos h]
  split
  · rename_i e heq
    rw [hq] at heq
    exact Except.noConfusion heq
  · rename_i p2 heq
    rw [hq] at heq
    injection heq with h3
    rw [h3]

theorem assembleLoopAddrs_head {d : Device} {N : Nat} {json : List Nat}
    (h : json.length < N) :
    (assembleLoopAddrs d N json).head? = some (pageAddr json.length) := by
  rw [assembleLoopAddrs, dif_pos h]
  split <;> rfl

theorem readJsonSize_cons (b0 b1 b2 b3 : Nat) (rest : List Nat) :
    readJsonSize (b0 :: b1 :: b2 :: b3 :: rest) =
      some (((b0 * 256 + b1) * 256 + b2) * 256 + b3) := rfl

theorem drop4_be32_append (n : Nat) (r : List Nat) : (be32 n ++ r).drop 4 = r := rfl

theorem readJsonSize_be32 {n : Nat} (h : n < 4294967296) (rest : List Nat) :
    readJsonSize (be32 n ++ rest) = some n := by
  simp only [be32, List.cons_append, List.nil_append, readJsonSize_cons]
  congr 1
  omega

theorem readJsonSize_eq_none_iff (raw : List Nat) :
    readJsonSize raw = none ↔ raw.length < 4 := by
  match raw with
  | [] => simp [readJsonSize]
  | [a] => simp [readJsonSize]
  | [a, b] => simp [readJsonSize]
  | [a, b, c] => simp [readJsonSize]
  | a :: b :: c :: d :: t =>
    simp [readJsonSize_cons]

theorem get_json_bytes_run {d : Device} {raw : List Nat} {N : Nat}
    (ho : d.openResult = none) (hq : hid_query d 0 = .ok raw)
    (hn : readJsonSize raw = some N) :
    get_json_bytes d =
      exceptToR ((assembleLoop d N (raw.drop 4)).map (fun l => l.take N)) := by
  simp only [get_json_bytes, ho, hq, hn]
  cases hassem : assembleLoop d N (raw.drop 4) <;> simp [exceptToR, Except.map]

theorem getRequestedLoopAddrs_run {d : Device} {raw : List Nat} {N : Nat}
    (ho : d.openResult = none) (hq : hid_query d 0 = .ok raw)
    (hn : readJsonSize raw = some N) :
    getRequestedLoopAddrs d = assembleLoopAddrs d N (raw.drop 4) := by
  simp only [getRequestedLoopAddrs, ho, hq, hn]

theorem hid_query_single {d : Device} {addr : Nat} {resp : List Nat}
    (hs : d.send (requestFrame addr) = (requestFrame addr).length)
    (hr : d.respond addr = [resp])
    (hlen : 4 < resp.length) (hecho : resp.take 4 = echoBytes addr) :
    hid_query d addr = .ok (resp.drop 4) := by
  simp only [hid_query, hid_multiread, hr, List.flatten_cons, List.flatten_nil,
    List.append_nil]
  rw [if_neg (fun hne => hne hs)]
  rw [if_neg (by omega)]
  rw [if_neg (fun hne => hne hecho)]

/-! ### Behaviour of `hid_query` against a well-behaved device -/

theorem echoBytes_length (a : Nat) : (echoBytes a).length = 4 := rfl

theorem take4_echo_append (a : Nat) (r : List Nat) :
    (echoBytes a ++ r).take 4 = echoBytes a := rfl

theorem drop4_echo_append (a : Nat) (r : List Nat) :
    (echoBytes a ++ r).drop 4 = r := rfl

theorem padTo64_length {l : List Nat} (h : l.length ≤ 64) : (padTo64 l).length = 64 := by
  simp only [padTo64, List.length_append, List.length_replicate]
  omega

theorem padTo64_eq_self {l : List Nat} (h : l.length = 64) : padTo64 l = l := by
  simp [padTo64, h]

theorem wb_hid_query {d : Device} {doc : List Nat} {s0 : Nat} (hwb : WellBehaved d doc s0)
    (a : Nat) (hlen : 4 < (pageResponse doc s0 a).length)
    (hecho : (pageResponse doc s0 a).take 4 = echoBytes a) :
    hid_query d a = .ok ((pageResponse doc s0 a).drop 4) := by
  obtain ⟨ho, hs, hr⟩ := hwb
  simp only [hid_query, hid_multiread, hr]
  rw [if_neg (fun hne => hne (hs _))]
  rw [if_neg (by omega)]
  rw [if_neg (fun hne => hne hecho)]

theorem wb_hid_query0 {d : Device} {doc : List Nat} {s0 : Nat}
    (hwb : WellBehaved d doc s0) :
    hid_query d 0 = .ok (be32 doc.length ++ doc.take s0) := by
  have hlen : 4 < (pageResponse doc s0 0).length := by
    simp [pageResponse, echoBytes, be32, List.length_append]
  have h := wb_hid_query hwb 0 hlen (take4_echo_append 0 _)
  rw [h]
  rfl

theorem wb_hid_query_succ {d : Device} {doc : List Nat} {s0 : Nat}
    (hwb : WellBehaved d doc s0) (a : Nat) :
    hid_query d (a + 1) = .ok (padTo64 ((doc.drop (s0 % 64 + 64 * a)).take 64)) := by
  have hl : ((doc.drop (s0 % 64 + 64 * a)).take 64).length ≤ 64 := by
    rw [List.length_take]
    omega
  have hlen : 4 < (pageResponse doc s0 (a + 1)).length := by
    simp only [pageResponse, List.length_append, echoBytes_length, padTo64_length hl]
    omega
  have h := wb_hid_query hwb (a + 1) hlen (take4_echo_append (a + 1) _)
  rw [h]
  rfl

/-- The invariant of the page-reading loop against a well-behaved device: from
an accumulated prefix of the document whose length is congruent to the page-0
slice length mod 64, the loop ends with a buffer whose first `doc.length`
bytes are the document. -/
theorem wb_loop {d : Device} {doc : List Nat} {s0 : Nat} (hwb : WellBehaved d doc s0)
    (hbound : doc.length ≤ 4194240) :
    ∀ k L, L ≤ doc.length → L % 64 = s0 % 64 → doc.length - L ≤ k →
      ∃ r : List Nat, assembleLoop d doc.length (doc.take L) = .ok r ∧
        r.take doc.length = doc := by
  intro k
  induction k with
  | zero =>
    intro L hL hmod hk
    have hEq : L = doc.length := by omega
    subst hEq
    rw [List.take_length]
    exact ⟨doc, assembleLoop_done (by omega), List.take_length doc⟩
  | succ k ih =>
    intro L hL hmod hk
    by_cases hlt : L < doc.length
    · have hlen_take : (doc.take L).length = L := by
        rw [List.length_take]
        omega
      have haddr : pageAddr (doc.take L).length = L / 64 + 1 := by
        rw [hlen_take]
        unfold pageAddr
        omega
      have hquery := wb_hid_query_succ hwb (L / 64)
      have hpos : s0 % 64 + 64 * (L / 64) = L := by omega
      rw [hpos] at hquery
      have hstep := @assembleLoop_step d doc.length (doc.take L)
        (padTo64 ((doc.drop L).take 64))
        (by rw [hlen_take]; exact hlt) (by rw [haddr]; exact hquery)
      by_cases hbig : L + 64 ≤ doc.length
      · have hslice : ((doc.drop L).take 64).length = 64 := by
          rw [List.length_take, List.length_drop]
          omega
        have hpad : padTo64 ((doc.drop L).take 64) = (doc.drop L).take 64 :=
          padTo64_eq_self hslice
        have hjoin : doc.take L ++ (doc.drop L).take 64 = doc.take (L + 64) :=
          (List.take_add doc L 64).symm
        rw [hstep, hpad, hjoin]
        exact ih (L + 64) hbig (by omega) (by omega)
      · have hdlen : (doc.drop L).length = doc.length - L := List.length_drop L doc
        have htk : (doc.drop L).take 64 = doc.drop L :=
          List.take_of_length_le (by omega)
        have hpad : padTo64 ((doc.drop L).take 64) =
            doc.drop L ++ List.replicate (64 - (doc.length - L)) 0 := by
          rw [htk]
          simp only [padTo64, hdlen]
        have hfull : doc.take L ++ (doc.drop L ++ List.replicate (64 - (doc.length - L)) 0) =
            doc ++ List.replicate (64 - (doc.length - L)) 0 := by
          rw [← List.append_assoc, List.take_append_drop]
        rw [hstep, hpad, hfull]
        refine ⟨doc ++ List.replicate (64 - (doc.length - L)) 0,
          assembleLoop_done ?_, List.take_left doc _⟩
        simp only [List.length_append, List.length_replicate]
        omega
    · have hEq : L = doc.length := by omega
      subst hEq
      rw [List.take_length]
      exact ⟨doc, assembleLoop_done (by omega), List.take_length doc⟩

/-- Round trip against any well-behaved device, for any document of length at
most 64 * 65535 (so that no page address is narrowed). -/
theorem roundtrip_general {d : Device} {doc : List Nat} {s0 : Nat}
    (hwb : WellBehaved d doc s0) (hbound : doc.length ≤ 4194240)
    (hutf : isValidUtf8 doc = true) :
    get_json_string d = .ok doc ∧ (doc = [] → getRequestedLoopAddrs d = []) := by
  have hq0 : hid_query d 0 = .ok (be32 doc.length ++ doc.take s0) := wb_hid_query0 hwb
  have hn : readJsonSize (be32 doc.length ++ doc.take s0) = some doc.length :=
    readJsonSize_be32 (by omega) _
  have hbytes0 := get_json_bytes_run hwb.1 hq0 hn
  rw [drop4_be32_append] at hbytes0
  have hloopOk : ∃ r, assembleLoop d doc.length (doc.take s0) = .ok r ∧
      r.take doc.length = doc := by
    by_cases hcase : doc.length ≤ s0
    · rw [List.take_of_length_le hcase]
      exact ⟨doc, assembleLoop_done (by omega), List.take_length doc⟩
    · exact wb_loop hwb hbound doc.length s0 (by omega) rfl (by omega)
  obtain ⟨r, hok, htake⟩ := hloopOk
  have hbytes : get_json_bytes d = .ok doc := by
    rw [hbytes0, hok]
    simp [exceptToR, Except.map, htake]
  constructor
  · simp only [get_json_string, hbytes, hutf]
    rfl
  · intro hdoc
    subst hdoc
    rw [getRequestedLoopAddrs_run hwb.1 hq0 hn, drop4_be32_append]
    exact assembleLoopAddrs_done (by simp)

/-! ### The run of `get_json_string` against the huge-document device -/

theorem take4_quad_append (a b c e : Nat) (r : List Nat) :
    (([a, b, c, e] : List Nat) ++ r).take 4 = [a, b, c, e] := rfl

theorem drop4_quad_append (a b c e : Nat) (r : List Nat) :
    (([a, b, c, e] : List Nat) ++ r).drop 4 = r := rfl

theorem dOverResp0_drop : dOverResp0.drop 4 = be32 4194305 ++ List.replicate 4194304 97 := by
  rw [dOverResp0]
  exact drop4_quad_append 0 0 0 0 _

theorem dOver_q0 : hid_query dOver 0 = .ok (be32 4194305 ++ List.replicate 4194304 97) := by
  have h := @hid_query_single dOver 0 dOverResp0
    rfl rfl
    (by rw [dOverResp0, List.length_append, List.length_append, List.length_replicate]
        norm_num [be32])
    (by rw [dOverResp0, take4_quad_append]
        rfl)
  rw [h, dOverResp0_drop]

theorem dOver_q1 : hid_query dOver 1 = .ok (List.replicate 64 97) := by
  have h := @hid_query_single dOver 1 dOverResp1
    rfl rfl
    (by rw [dOverResp1, List.length_append, List.length_replicate]
        norm_num)
    (by rw [dOverResp1, take4_quad_append]
        rfl)
  rw [h, dOverResp1]
  rw [drop4_quad_append]

theorem dOver_loop_facts :
    assembleLoopAddrs dOver 4194305 (List.replicate 4194304 97) = [1] ∧
      assembleLoop dOver 4194305 (List.replicate 4194304 97) =
        .ok (List.replicate 4194368 97) := by
  have hlt : (List.replicate (4194304 : Nat) (97 : Nat)).length < 4194305 := by
    rw [List.length_replicate]
    omega
  have haddr : pageAddr (List.replicate (4194304 : Nat) (97 : Nat)).length = 1 := by
    rw [List.length_replicate]
    decide
  have hq1 : hid_query dOver (pageAddr (List.replicate (4194304 : Nat) (97 : Nat)).length) =
      .ok (List.replicate 64 97) := by
    rw [haddr]
    exact dOver_q1
  have happ : List.replicate (4194304 : Nat) (97 : Nat) ++ List.replicate 64 97 =
      List.replicate 4194368 97 := by
    rw [← List.replicate_add]
  have hdone_len : ¬ (List.replicate (4194368 : Nat) (97 : Nat)).length < 4194305 := by
    rw [List.length_replicate]
    omega
  constructor
  · rw [assembleLoopAddrs_step hlt hq1, haddr, happ, assembleLoopAddrs_done hdone_len]
  · rw [assembleLoop_step hlt hq1, happ, assembleLoop_done hdone_len]

theorem dOver_bytes : get_json_bytes dOver = .ok (List.replicate 4194305 97) := by
  rw [get_json_bytes_run rfl dOver_q0 (readJsonSize_be32 (by norm_num) _),
    drop4_be32_append, dOver_loop_facts.2]
  simp only [Except.map, exceptToR, List.take_replicate]
  rw [inf_eq_left.mpr (by norm_num : (4194305 : ℕ) ≤ 4194368)]

/-! ### Facts about the `as u32` narrowing -/

theorem f32ToU32_le (v : F32) : f32ToU32 v ≤ 4294967295 := by
  cases v with
  | nan => simp [f32ToU32]
  | negInf => simp [f32ToU32]
  | posInf => simp [f32ToU32]
  | finite q =>
    simp only [f32ToU32]
    split_ifs
    · omega
    · exact min_le_right _ _

theorem ratNumToNat_cast {q : ℚ} (h : 0 < q.num) :
    ((q.num.toNat : ℕ) : ℚ) = (q.num : ℚ) := by
  exact_mod_cast congrArg (fun z : ℤ => (z : ℚ)) (Int.toNat_of_nonneg (le_of_lt h))

theorem f32ToU32_natCast {n : ℕ} (h : n ≤ 4294967295) : f32ToU32 (.finite (n : ℚ)) = n := by
  rcases Nat.eq_zero_or_pos n with hn | hn
  · subst hn
    simp [f32ToU32]
  · have hpos : (0 : ℚ) < (n : ℚ) := by exact_mod_cast hn
    simp only [f32ToU32]
    rw [if_neg (not_le.mpr hpos), Rat.num_natCast, Rat.den_natCast]
    simp only [Int.toNat_natCast, Nat.div_one]
    omega

theorem f32ToU32_neg {q : ℚ} (h : q < 0) : f32ToU32 (.finite q) = 0 := by
  simp [f32ToU32, le_of_lt h]

theorem f32ToU32_big {q : ℚ} (h : (4294967295 : ℚ) < q) :
    f32ToU32 (.finite q) = 4294967295 := by
  have hqpos : (0 : ℚ) < q := lt_trans (by norm_num) h
  have hz : ¬ q ≤ 0 := not_le.mpr hqpos
  have hdenQ : (0 : ℚ) < (q.den : ℚ) := by exact_mod_cast q.den_pos
  have hnum : 0 < q.num := Rat.num_pos.mpr hqpos
  have h1 : (4294967295 : ℚ) * (q.den : ℚ) < (q.num : ℚ) := by
    rw [← Rat.num_div_den q] at h
    exact (lt_div_iff hdenQ).mp h
  have h2 : 4294967295 * q.den < q.num.toNat := by
    have hq : ((4294967295 * q.den : ℕ) : ℚ) < ((q.num.toNat : ℕ) : ℚ) := by
      push_cast
      rw [ratNumToNat_cast hnum]
      push_cast
      linarith
    exact_mod_cast hq
  have h3 : 4294967295 ≤ q.num.toNat / q.den :=
    (Nat.le_div_iff_mul_le q.den_pos).mpr (le_of_lt h2)
  simp only [f32ToU32]
  rw [if_neg hz, min_eq_right h3]

theorem f32ToU32_trunc {q : ℚ} (h0 : 0 ≤ q) (hlt : q < 4294967296) :
    (f32ToU32 (.finite q) : ℚ) ≤ q ∧ q < (f32ToU32 (.finite q) : ℚ) + 1 := by
  by_cases hz : q ≤ 0
  · have hq0 : q = 0 := le_antisymm hz h0
    subst hq0
    simp [f32ToU32]
  · push_neg at hz
    have hdenQ : (0 : ℚ) < (q.den : ℚ) := by exact_mod_cast q.den_pos
    have hnum : 0 < q.num := Rat.num_pos.mpr hz
    simp only [f32ToU32]
    rw [if_neg (not_le.mpr hz)]
    set t := q.num.toNat / q.den with ht
    have hub : t * q.den ≤ q.num.toNat := Nat.div_mul_le_self _ _
    have hlb : q.num.toNat < (t + 1) * q.den :=
      (Nat.div_lt_iff_lt_mul q.den_pos).mp (Nat.lt_succ_self _)
    have h1 : (t : ℚ) * (q.den : ℚ) ≤ (q.num : ℚ) := by
      have hq : ((t * q.den : ℕ) : ℚ) ≤ ((q.num.toNat : ℕ) : ℚ) := by exact_mod_cast hub
      rw [ratNumToNat_cast hnum] at hq
      push_cast at hq
      exact hq
    have h2 : (q.num : ℚ) < ((t : ℚ) + 1) * (q.den : ℚ) := by
      have hq : ((q.num.toNat : ℕ) : ℚ) < (((t + 1) * q.den : ℕ) : ℚ) := by exact_mod_cast hlb
      rw [ratNumToNat_cast hnum] at hq
      push_cast at hq
      exact hq
    have hle : (t : ℚ) ≤ q := by
      rw [← Rat.num_div_den q, le_div_iff hdenQ]
      exact h1
    have hlt1 : q < (t : ℚ) + 1 := by
      rw [← Rat.num_div_den q, div_lt_iff hdenQ]
      exact h2
    have htb : t ≤ 4294967295 := by
      have hc : (t : ℚ) < 4294967296 := lt_of_le_of_lt hle hlt
      have hc2 : t < 4294967296 := by exact_mod_cast hc
      omega
    rw [min_eq_left htb]
    exact ⟨hle, hlt1⟩

/-! ### Facts about the enumerator loop -/

theorem findallLoop_total (parse : List Nat → Except String ConfigJSON) :
    ∀ cs : List Candidate, (∀ c ∈ cs, processCandidate parse c ≠ none) →
      ∃ outs, findallLoop parse cs = some outs ∧ outs.length = cs.length ∧
        List.Forall₂ (fun c o => processCandidate parse c = some o) cs outs := by
  intro cs
  induction cs with
  | nil => exact fun _ => ⟨[], rfl, rfl, List.Forall₂.nil⟩
  | cons c rest ih =>
    intro hall
    obtain ⟨outs, h1, h2, h3⟩ := ih fun x hx => hall x (List.mem_cons_of_mem _ hx)
    cases hpc : processCandidate parse c with
    | none => exact absurd hpc (hall c (List.mem_cons_self _ _))
    | some out =>
      refine ⟨out :: outs, ?_, by simp [h2], List.Forall₂.cons hpc h3⟩
      simp [findallLoop, hpc, h1]

/-! ### The claims -/

/-- C1: Round-trip reassembly.  For every document whose declared length is one
of 0, 1, 63, 64, 65, 1000, served by a well-behaved device (every page response
echoes the requested address and carries the correct slice), `get_json_string`
returns the byte-identical document text regardless of how the device splits
the bytes across page boundaries (the page-0 slice size `s0`) and across
individual channel reads (the chunking of `Device.respond`); for the empty
document the page-reading loop body never executes. -/
theorem roundtrip_reassembly {doc : List Nat} {s0 : Nat} {d : Device}
    (hwb : WellBehaved d doc s0)
    (hlen : doc.length ∈ ([0, 1, 63, 64, 65, 1000] : List Nat))
    (hutf : isValidUtf8 doc = true) :
    get_json_string d = .ok doc ∧ (doc = [] → getRequestedLoopAddrs d = []) := by
  have hbound : doc.length ≤ 4194240 := by
    simp only [List.mem_cons, List.not_mem_nil, or_false] at hlen
    rcases hlen with h | h | h | h | h | h <;> omega
  exact roundtrip_general hwb hbound hutf

/-- Witness for C1: the 65-byte ASCII document with the page-0 split after
byte 50. -/
theorem roundtrip_reassembly_witness : get_json_string dRT = .ok docW := by
  have hwb : WellBehaved dRT docW 50 :=
    ⟨rfl, fun f => rfl, fun a => by simp [dRT]⟩
  exact (roundtrip_reassembly hwb (by decide) (by decide)).1

/-- C2 (amended): the Stream Assembler decodes the declared length N as the
big-endian 32-bit unsigned integer formed by the first 4 payload bytes of
page 0, initializes the accumulated buffer with the remainder of page 0's
payload, then, for every iteration while accumulated length < N, requests page
address ((accumulated_length / 64) mod 2^16 + 1) mod 2^16 — the address is
computed in 16-bit arithmetic, not as the unbounded floor(len/64) + 1 — and
appends that page's full payload; once accumulated length ≥ N the buffer is
truncated to exactly N bytes before decoding. -/
theorem stream_assembler_algorithm (d : Device) :
    (∀ b0 b1 b2 b3 : Nat, ∀ rest : List Nat,
        readJsonSize (b0 :: b1 :: b2 :: b3 :: rest) =
          some (((b0 * 256 + b1) * 256 + b2) * 256 + b3))
    ∧ (∀ raw N, d.openResult = none → hid_query d 0 = .ok raw →
        readJsonSize raw = some N →
        get_json_bytes d =
          exceptToR ((assembleLoop d N (raw.drop 4)).map (fun l => l.take N)))
    ∧ (∀ N json, json.length < N →
        (assembleLoopAddrs d N json).head? = some (pageAddr json.length))
    ∧ (∀ N json p, json.length < N → hid_query d (pageAddr json.length) = .ok p →
        assembleLoop d N json = assembleLoop d N (json ++ p))
    ∧ (∀ N json e, json.length < N → hid_query d (pageAddr json.length) = .error e →
        assembleLoop d N json = .error e)
    ∧ (∀ N json, ¬ json.length < N → assembleLoop d N json = .ok json)
    ∧ (∀ N : Nat, ∀ json : List Nat, N ≤ json.length → (json.take N).length = N) :=
  ⟨fun b0 b1 b2 b3 rest => readJsonSize_cons b0 b1 b2 b3 rest,
    fun _ N ho hq hn => get_json_bytes_run ho hq hn,
    fun _ _ h => assembleLoopAddrs_head h,
    fun _ _ _ h hq => assembleLoop_step h hq,
    fun _ _ _ h hq => assembleLoop_error h hq,
    fun _ _ h => assembleLoop_done h,
    fun N json h => by rw [List.length_take]; exact inf_eq_left.mpr h⟩

/-- Counterexample for C2 as frozen: `dOver` declares length 4194305 and
serves 4194304 document bytes on page 0, so the single loop iteration runs at
accumulated length 4194304 and requests page address 1, not
floor(4194304 / 64) + 1 = 65537. -/
theorem stream_assembler_address_counterexample :
    hid_query dOver 0 = .ok (be32 4194305 ++ List.replicate 4194304 97)
    ∧ readJsonSize (be32 4194305 ++ List.replicate 4194304 97) = some 4194305
    ∧ (be32 4194305 ++ List.replicate 4194304 97).drop 4 = List.replicate 4194304 97
    ∧ assembleLoopAddrs dOver 4194305 (List.replicate 4194304 97) = [1]
    ∧ 4194304 / 64 + 1 = 65537 :=
  ⟨dOver_q0, readJsonSize_be32 (by norm_num) _, drop4_be32_append _ _,
    dOver_loop_facts.1, by norm_num⟩

/-- Witness for C2 at a 2-byte document served entirely on page 0. -/
theorem stream_assembler_algorithm_witness :
    get_json_bytes dW2 =
      exceptToR ((assembleLoop dW2 2 (([0, 0, 0, 2, 65, 66] : List Nat).drop 4)).map
        (fun l => l.take 2)) :=
  (stream_assembler_algorithm dW2).2.1 [0, 0, 0, 2, 65, 66] 2 rfl rfl rfl

/-- C3: Confirmation check.  When the fixed-size write succeeds, `hid_query`
returns the confirmation-mismatch (`read`) error exactly when the accumulated
response has length ≤ 4 or its first 4 bytes differ from
[0, 0, addr >> 8, addr & 0xFF]; when the check passes it returns the response
with precisely the 4 echo-header bytes removed, and a mismatching response is
never accepted. -/
theorem confirmation_check (d : Device) (addr : Nat)
    (hw : d.send (requestFrame addr) = (requestFrame addr).length) :
    (hid_query d addr = .error .read ↔
      ((d.respond addr).join.length ≤ 4 ∨ (d.respond addr).join.take 4 ≠ echoBytes addr))
    ∧ (4 < (d.respond addr).join.length → (d.respond addr).join.take 4 = echoBytes addr →
        hid_query d addr = .ok ((d.respond addr).join.drop 4))
    ∧ ((d.respond addr).join.take 4 ≠ echoBytes addr →
        ∀ v, hid_query d addr ≠ .ok v) := by
  have hqe : hid_query d addr =
      if (d.respond addr).join.length ≤ 4 then .error .read
      else if (d.respond addr).join.take 4 ≠ echoBytes addr then .error .read
      else .ok ((d.respond addr).join.drop 4) := by
    simp only [hid_query, hid_multiread]
    rw [if_neg (fun hne => hne hw)]
  refine ⟨⟨?_, ?_⟩, ?_, ?_⟩
  · intro h
    by_contra hcon
    push_neg at hcon
    obtain ⟨h1, h2⟩ := hcon
    rw [hqe, if_neg (by omega), if_neg (fun hne => hne h2)] at h
    exact Except.noConfusion h
  · intro h
    rcases h with h | h
    · rw [hqe, if_pos h]
    · by_cases hl : (d.respond addr).join.length ≤ 4
      · rw [hqe, if_pos hl]
      · rw [hqe, if_neg hl, if_pos h]
  · intro h1 h2
    rw [hqe, if_neg (by omega), if_neg (fun hne => hne h2)]
  · intro hne v heq
    rw [hqe] at heq
    by_cases hl : (d.respond addr).join.length ≤ 4
    · rw [if_pos hl] at heq
      exact Except.noConfusion heq
    · rw [if_neg hl, if_pos hne] at heq
      exact Except.noConfusion heq

/-- Witness for C3 at a device whose response carries a wrong echo header. -/
theorem confirmation_check_witness : hid_query dMismatch 5 = .error .read :=
  (confirmation_check dMismatch 5 rfl).1.mpr (Or.inr (by decide))

/-- C4: Request frame format.  For every page address below 2^16 the frame
`hid_query` sends is exactly 68 bytes: two zero bytes, the big-endian 16-bit
address, then 64 zero padding bytes; and a write reporting any other count
than 68 yields the write-mismatch error. -/
theorem request_frame_format (addr : Nat) (h : addr < 65536) :
    (requestFrame addr).length = 68
    ∧ requestFrame addr = [0, 0, addr / 256, addr % 256] ++ List.replicate 64 0
    ∧ (∀ d : Device, d.send (requestFrame addr) ≠ 68 →
        hid_query d addr = .error .write) := by
  have h68 : (requestFrame addr).length = 68 := by
    simp [requestFrame]
  refine ⟨h68, ?_, ?_⟩
  · have hs : addr >>> 8 = addr / 256 := by
      rw [Nat.shiftRight_eq_div_pow]
    have hm : addr / 256 % 256 = addr / 256 := Nat.mod_eq_of_lt (by omega)
    simp [requestFrame, hs, hm]
  · intro d hsend
    simp only [hid_query]
    rw [if_pos (by rw [h68]; exact hsend)]

/-- Witness for C4 at address 513 = 0x0201. -/
theorem request_frame_format_witness :
    (requestFrame 513).length = 68
    ∧ requestFrame 513 = [0, 0, 2, 1] ++ List.replicate 64 0 := by
  have h := request_frame_format 513 (by norm_num)
  refine ⟨h.1, ?_⟩
  rw [h.2.1]

/-- C5: Record Decoder.  For every parsed document, `json_to_glass` returns a
record if and only if the configVersion field equals "1.0"; any other version
yields the unsupported-version error and no record; on success each numeric
field equals the corresponding `value` sub-field exactly, the serial is copied,
and the screen fields are narrowed by truncation toward zero (the `f32ToU32`
value is the integer truncation for every in-range value). -/
theorem record_decoder_projection (c : ConfigJSON) :
    ((∃ g, json_to_glass (.ok c) = .ok g) ↔ c.configVersion = "1.0")
    ∧ (c.configVersion = "1.0" →
        json_to_glass (.ok c) = .ok
          { serial := c.serial
            pitch := c.pitch.value
            slope := c.slope.value
            center := c.center.value
            dpi := c.DPI.value
            screen_w := f32ToU32 c.screenW.value
            screen_h := f32ToU32 c.screenH.value })
    ∧ (c.configVersion ≠ "1.0" →
        json_to_glass (.ok c) =
          .error (.ParseError (unsupportedVersionMsg c.configVersion)))
    ∧ (∀ q : ℚ, 0 ≤ q → q < 4294967296 →
        (f32ToU32 (.finite q) : ℚ) ≤ q ∧ q < (f32ToU32 (.finite q) : ℚ) + 1) := by
  have hok : c.configVersion = "1.0" →
      json_to_glass (.ok c) = .ok
        { serial := c.serial
          pitch := c.pitch.value
          slope := c.slope.value
          center := c.center.value
          dpi := c.DPI.value
          screen_w := f32ToU32 c.screenW.value
          screen_h := f32ToU32 c.screenH.value } := by
    intro h
    simp [json_to_glass, h]
  have herr : c.configVersion ≠ "1.0" →
      json_to_glass (.ok c) =
        .error (.ParseError (unsupportedVersionMsg c.configVersion)) := by
    intro h
    simp [json_to_glass, h]
  refine ⟨⟨?_, fun h => ⟨_, hok h⟩⟩, hok, herr, fun q h0 hlt => f32ToU32_trunc h0 hlt⟩
  rintro ⟨g, hg⟩
  by_contra hv
  rw [herr hv] at hg
  exact Except.noConfusion hg

/-- Witness for C5: the example document of §8 decodes to serial "00297",
DPI 338, screen 2560 × 1600. -/
theorem record_decoder_projection_witness :
    json_to_glass (.ok exampleConfig) = .ok exampleGlass := by
  have h := (record_decoder_projection exampleConfig).2.1 rfl
  rw [h]
  have hc1 : ((2560 : ℕ) : ℚ) = (2560 : ℚ) := by norm_num
  have h1 : f32ToU32 (.finite (2560 : ℚ)) = 2560 := by
    rw [← hc1]
    exact f32ToU32_natCast (by norm_num)
  have hc2 : ((1600 : ℕ) : ℚ) = (1600 : ℚ) := by norm_num
  have h2 : f32ToU32 (.finite (1600 : ℚ)) = 1600 := by
    rw [← hc2]
    exact f32ToU32_natCast (by norm_num)
  simp [exampleConfig, exampleGlass, h1, h2]

/-- C6: Encoding-error separation.  When the truncated assembled bytes are not
valid UTF-8, `get_json_string` reports the `string` error variant, which is
distinct from the transport error variants (`write`, `read`, `openFail`). -/
theorem encoding_error_distinct (d : Device) (B : List Nat)
    (hB : get_json_bytes d = .ok B) (hinv : isValidUtf8 B = false) :
    get_json_string d = .err (.string utf8Msg)
    ∧ (∀ s, HidErr.string s ≠ .write)
    ∧ (∀ s, HidErr.string s ≠ .read)
    ∧ (∀ s t, HidErr.string s ≠ .openFail t) := by
  refine ⟨?_, fun s h => HidErr.noConfusion h, fun s h => HidErr.noConfusion h,
    fun s t h => HidErr.noConfusion h⟩
  simp [get_json_string, hB, hinv]

/-- Witness for C6 at a device serving the single invalid byte 255. -/
theorem encoding_error_distinct_witness :
    get_json_string dBadUtf = .err (.string utf8Msg) := by
  have hq : hid_query dBadUtf 0 = .ok [0, 0, 0, 1, 255] := rfl
  have hn : readJsonSize [0, 0, 0, 1, 255] = some 1 := rfl
  have hB : get_json_bytes dBadUtf = .ok [255] := by
    rw [get_json_bytes_run rfl hq hn]
    have hdone : assembleLoop dBadUtf 1 (([0, 0, 0, 1, 255] : List Nat).drop 4) =
        .ok [255] :=
      assembleLoop_done (by decide)
    rw [hdone]
    rfl
  exact (encoding_error_distinct dBadUtf [255] hB (by decide)).1

/-- C7: Enumerator resilience.  `findall` records one outcome per candidate and
never aborts the enumeration because one candidate failed: with zero matching
candidates it returns the empty collection; a candidate with no obtainable
serial gets a typed failure; a candidate whose handle cannot be opened gets a
typed failure wrapping the transport error. -/
theorem enumerator_resilience (w : HidWorld) (parse : List Nat → Except String ConfigJSON) :
    (w.init = .ok [] → findall w parse = some [])
    ∧ (∀ cs, w.init = .ok cs → (∀ c ∈ cs, processCandidate parse c ≠ none) →
        ∃ outs, findall w parse = some outs ∧ outs.length = cs.length ∧
          List.Forall₂ (fun c o => processCandidate parse c = some o) cs outs)
    ∧ (∀ c : Candidate, c.serial_number = none →
        processCandidate parse c =
          some (.error (.HIDError ("Error reading - may lack permissions?"))))
    ∧ (∀ c : Candidate, ∀ e : HidErr, c.serial_number ≠ none →
        c.dev.openResult = some e →
        processCandidate parse c = some (.error (.HIDError (hidErrString e)))) := by
  refine ⟨?_, ?_, ?_, ?_⟩
  · intro h
    simp [findall, h, findallLoop]
  · intro cs hcs hall
    obtain ⟨outs, h1, h2, h3⟩ := findallLoop_total parse cs hall
    exact ⟨outs, by simp [findall, hcs, h1], h2, h3⟩
  · intro c h
    simp [processCandidate, h]
  · intro c e hs ho
    cases hser : c.serial_number with
    | none => exact absurd hser hs
    | some s =>
      simp [processCandidate, hser, get_json_string, get_json_bytes, ho]

/-- Witness for C7: the empty enumeration and a serial-less candidate. -/
theorem enumerator_resilience_witness :
    findall ⟨.ok []⟩ parseStub = some []
    ∧ processCandidate parseStub cNoSerial =
        some (.error (.HIDError ("Error reading - may lack permissions?"))) := by
  have h := enumerator_resilience ⟨.ok []⟩ parseStub
  exact ⟨h.1 rfl, h.2.2.1 cNoSerial rfl⟩

/-- Counterexample for C8 as frozen: `hid_query` accepts the 5-byte page-0
response of `dShort` (payload [65], length 1), and `get_json_string` then hits
an out-of-bounds index (panic) extracting the 4-byte declared length. -/
theorem length_extraction_panic_counterexample :
    hid_query dShort 0 = .ok [65] ∧ get_json_string dShort = .panic :=
  ⟨rfl, rfl⟩

/-- C8 (amended): the declared-length extraction accesses only in-bounds bytes
when the accepted page-0 payload has at least 4 bytes; an accepted payload of
1 to 3 bytes causes an out-of-bounds index: `get_json_string` panics exactly
when page 0 yields an accepted payload shorter than 4 bytes. -/
theorem length_extraction_inbounds_amended (d : Device) :
    get_json_string d = .panic ↔
      ∃ raw, d.openResult = none ∧ hid_query d 0 = .ok raw ∧ raw.length < 4 := by
  constructor
  · intro h
    cases ho : d.openResult with
    | some e => simp [get_json_string, get_json_bytes, ho] at h
    | none =>
      cases hq : hid_query d 0 with
      | error e => simp [get_json_string, get_json_bytes, ho, hq] at h
      | ok raw =>
        cases hn : readJsonSize raw with
        | none => exact ⟨raw, rfl, rfl, (readJsonSize_eq_none_iff raw).mp hn⟩
        | some N =>
          cases hl : assembleLoop d N (raw.drop 4) with
          | error e => simp [get_json_string, get_json_bytes, ho, hq, hn, hl] at h
          | ok json =>
            have hbytes : get_json_bytes d = .ok (json.take N) := by
              simp [get_json_bytes, ho, hq, hn, hl]
            simp only [get_json_string, hbytes] at h
            split_ifs at h <;> exact RResult.noConfusion h
  · rintro ⟨raw, ho, hq, hlen⟩
    have hn : readJsonSize raw = none := (readJsonSize_eq_none_iff raw).mpr hlen
    have hbytes : get_json_bytes d = .panic := by
      simp [get_json_bytes, ho, hq, hn]
    simp [get_json_string, hbytes]

/-- Witness for C8 (amended) at the 1-byte-payload device. -/
theorem length_extraction_inbounds_amended_witness :
    get_json_string dShort = .panic :=
  (length_extraction_inbounds_amended dShort).mpr ⟨[65], rfl, rfl, by decide⟩

/-- C9: Page-address narrowing.  The loop passes to the Page Transaction the
address ((accumulated_length / 64) mod 2^16 + 1) mod 2^16; no bound check
rejects a declared length implying addresses beyond 65535, so at accumulated
length 4194304 the requested address wraps to 1 instead of the mathematical
65537, and the assembly against `dOver` still completes. -/
theorem page_address_wrap :
    (∀ d : Device, ∀ N : Nat, ∀ json : List Nat, json.length < N →
        (assembleLoopAddrs d N json).head? = some (pageAddr json.length))
    ∧ (∀ L, pageAddr L = ((L / 64) % 65536 + 1) % 65536)
    ∧ pageAddr 4194304 = 1
    ∧ 4194304 / 64 + 1 = 65537
    ∧ get_json_bytes dOver = .ok (List.replicate 4194305 97) :=
  ⟨fun _ _ _ h => assembleLoopAddrs_head h, fun _ => rfl, by decide, by norm_num,
    dOver_bytes⟩

/-- Witness for C9: the first loop request of a partially filled buffer. -/
theorem page_address_wrap_witness :
    (assembleLoopAddrs dOver 2 [65]).head? = some (pageAddr 1) :=
  page_address_wrap.1 dOver 2 [65] (by decide)

/-- C10: Screen-dimension narrowing is total.  For every parsed document with
configVersion "1.0", `json_to_glass` returns a record and never fails; the
float-to-unsigned conversion saturates: NaN and negative values map to 0,
values above 2^32 - 1 map to 2^32 - 1, and every result is at most
2^32 - 1. -/
theorem screen_narrowing_total (c : ConfigJSON) (h : c.configVersion = "1.0") :
    (∃ g, json_to_glass (.ok c) = .ok g)
    ∧ f32ToU32 .nan = 0
    ∧ f32ToU32 .negInf = 0
    ∧ (∀ q : ℚ, q < 0 → f32ToU32 (.finite q) = 0)
    ∧ f32ToU32 .posInf = 4294967295
    ∧ (∀ q : ℚ, (4294967295 : ℚ) < q → f32ToU32 (.finite q) = 4294967295)
    ∧ (∀ v : F32, f32ToU32 v ≤ 4294967295) := by
  refine ⟨⟨{ serial := c.serial
             pitch := c.pitch.value
             slope := c.slope.value
             center := c.center.value
             dpi := c.DPI.value
             screen_w := f32ToU32 c.screenW.value
             screen_h := f32ToU32 c.screenH.value }, ?_⟩,
    rfl, rfl, fun _ hq => f32ToU32_neg hq, rfl, fun _ hq => f32ToU32_big hq, f32ToU32_le⟩
  simp [json_to_glass, h]

/-- Witness for C10 at the example configuration. -/
theorem screen_narrowing_total_witness :
    (∃ g, json_to_glass (.ok exampleConfig) = .ok g) ∧ f32ToU32 .nan = 0 :=
  ⟨(screen_narrowing_total exampleConfig rfl).1,
    (screen_narrowing_total exampleConfig rfl).2.1⟩

end Pluton
